import Mathlib

/-!
Verification development for the insta-video resolution engine
(`app/api/download/route.ts` and collaborators).

The TypeScript source is shallowly embedded: pure functions become Lean
functions; JavaScript `BigInt` arithmetic becomes `Nat` (arbitrary precision,
and all durations/timestamps in the source are non-negative integers);
fallible code returns `Except`/`Option`; network effects are modelled by
environments that record, for each outbound call a request makes, the response
that call observed.  JavaScript truthiness of optional strings (absent, or the
empty string, count as false) is modelled by `truthyStr`.
-/

/-- JavaScript truthiness for an optional string field: `undefined`/`null`
(`none`) and the empty string are falsy. -/
def truthyStr : Option String → Bool
  | none => false
  | some s => s ≠ ""

/-- JavaScript `a || b` on optional string fields. -/
def jsOr (a b : Option String) : Option String :=
  if truthyStr a then a else b

/-- `String.prototype.padStart(2, "0")` as used by the duration formatter. -/
def padStart2Zero (s : String) : String :=
  String.mk (List.replicate (2 - s.length) '0') ++ s

/-- Fuel-driven worker for `replaceAll`; the fuel is the length of the
remaining input, which bounds the number of steps because every step consumes
at least one character. -/
def replaceAllAux (pat rep : List Char) : Nat → List Char → List Char
  | 0, l => l
  | _ + 1, [] => []
  | fuel + 1, c :: cs =>
    if pat ≠ [] ∧ pat.isPrefixOf (c :: cs) then
      rep ++ replaceAllAux pat rep fuel ((c :: cs).drop pat.length)
    else
      c :: replaceAllAux pat rep fuel cs

/-- JavaScript `String.prototype.replace(/pat/g, rep)` for a literal pattern:
replaces every (leftmost, non-overlapping) occurrence. -/
def replaceAll (pat rep l : List Char) : List Char :=
  replaceAllAux pat rep l.length l

-- ==========================================================
-- Rate limiter (route.ts lines 4-23)
-- ==========================================================

/-- One entry of `rateLimitMap`. -/
structure RateLimitRecord where
  count : Nat
  lastReset : Nat
deriving DecidableEq, Repr

/-- `const RATE_LIMIT = 10`. -/
def RATE_LIMIT : Nat := 10

/-- `const RATE_LIMIT_WINDOW = 60 * 1000`. -/
def RATE_LIMIT_WINDOW : Nat := 60 * 1000

/-- `checkRateLimit` for one fixed client key: the input is the stored record
for that key (`none` when the map has no entry) and the current time; the
output is the returned boolean together with the record stored afterwards.
Mirrors route.ts lines 8-23. -/
def checkRateLimit (now : Nat) (record : Option RateLimitRecord) :
    Bool × Option RateLimitRecord :=
  match record with
  | none => (true, some ⟨1, now⟩)
  | some r =>
    if now - r.lastReset > RATE_LIMIT_WINDOW then
      (true, some ⟨1, now⟩)
    else if r.count ≥ RATE_LIMIT then
      (false, some r)
    else
      (true, some ⟨r.count + 1, r.lastReset⟩)

/-- Run a sequence of `checkRateLimit` calls (all for the same key) at the
given timestamps, threading the stored record; returns the list of returned
booleans and the final stored record. -/
def runCalls : List Nat → Option RateLimitRecord →
    List Bool × Option RateLimitRecord
  | [], st => ([], st)
  | t :: ts, st =>
    let step := checkRateLimit t st
    let rest := runCalls ts step.2
    (step.1 :: rest.1, rest.2)

-- ==========================================================
-- Base-62 share-id decoder (route.ts lines 70-87)
-- ==========================================================

/-- The decoder's alphabet, exactly as in the source. -/
def base62Alphabet : String :=
  "0123456789abcdefghijklmnopqrstuvwxyzABCDEFGHIJKLMNOPQRSTUVWXYZ"

/-- `alphabet.indexOf(char)`, with `-1` modelled as `none`. -/
def alphabetIndex (c : Char) : Option Nat :=
  base62Alphabet.toList.indexOf? c

/-- The decoding loop of `base62ToDecimal`: fold the digits most significant
first, throwing on a character outside the alphabet. -/
def base62ToDecimalAux : List Char → Nat → Except String Nat
  | [], acc => .ok acc
  | c :: cs, acc =>
    match alphabetIndex c with
    | none => .error ("Invalid base62 character: " ++ String.singleton c)
    | some v => base62ToDecimalAux cs (acc * 62 + v)

/-- `base62ToDecimal`: decode a base-62 string into the decimal rendering of
its value (`BigInt` becomes `Nat`, `decimal.toString()` becomes `Nat.repr`). -/
def base62ToDecimal (s : String) : Except String String :=
  (base62ToDecimalAux s.toList 0).map Nat.repr

/-- Specification-side value of a digit string read most significant digit
first: the leading digit is weighted by `62 ^ (number of remaining digits)`. -/
def msbValue : List Char → Nat
  | [] => 0
  | c :: cs => (alphabetIndex c).getD 0 * 62 ^ cs.length + msbValue cs

-- ==========================================================
-- A small matcher for the JavaScript regular expressions the
-- route uses.  Every pattern in the source is a sequence of
-- literals, single-character classes and greedy/lazy repeated
-- classes with exactly one capture group, so a pattern is
-- represented as (items before the group, items of the group,
-- items after the group).  Matching is leftmost-first with
-- greedy (or lazy) backtracking, like the JavaScript engine.
-- ==========================================================

/-- A single-quote character, written via its code point. -/
def sqChar : Char := Char.ofNat 39

/-- One item of a regular expression: a literal, a case-insensitive literal,
one character of a (possibly negated) class, a greedy `*`, a lazy `*?`, or a
greedy `+` of a class. -/
inductive SItem where
  | lit (s : List Char)
  | litCI (s : List Char)
  | one (neg : Bool) (cs : List Char)
  | many (neg : Bool) (cs : List Char)
  | manyLazy (neg : Bool) (cs : List Char)
  | plus (neg : Bool) (cs : List Char)
deriving Repr

/-- Membership of a character in a (possibly negated) class. -/
def classMem (neg : Bool) (cs : List Char) (c : Char) : Bool :=
  if neg then ¬ cs.contains c else cs.contains c

/-- Case-insensitive prefix test (for `/i` patterns). -/
def isPrefixOfCI : List Char → List Char → Bool
  | [], _ => true
  | _ :: _, [] => false
  | a :: as, b :: bs => (a.toLower = b.toLower) && isPrefixOfCI as bs

/-- Match a sequence of items at the head of the input, calling the
continuation on every viable remainder in the engine's priority order
(greedy repetitions longest first, lazy ones shortest first) and returning
the first answer the continuation accepts. -/
def matchSItems : List SItem → List Char → (List Char → Option α) → Option α
  | [], l, k => k l
  | .lit s :: rest, l, k =>
    if s.isPrefixOf l then matchSItems rest (l.drop s.length) k else none
  | .litCI s :: rest, l, k =>
    if isPrefixOfCI s l then matchSItems rest (l.drop s.length) k else none
  | .one neg cs :: rest, l, k =>
    match l with
    | [] => none
    | c :: l2 => if classMem neg cs c then matchSItems rest l2 k else none
  | .many neg cs :: rest, l, k =>
    let maxRun := (l.takeWhile (classMem neg cs)).length
    (List.range (maxRun + 1)).reverse.findSome?
      (fun n => matchSItems rest (l.drop n) k)
  | .manyLazy neg cs :: rest, l, k =>
    let maxRun := (l.takeWhile (classMem neg cs)).length
    (List.range (maxRun + 1)).findSome?
      (fun n => matchSItems rest (l.drop n) k)
  | .plus neg cs :: rest, l, k =>
    let maxRun := (l.takeWhile (classMem neg cs)).length
    (List.range maxRun).reverse.findSome?
      (fun i => matchSItems rest (l.drop (i + 1)) k)

/-- A whole pattern: the items before, inside and after its single capture
group. -/
structure Pattern where
  pre : List SItem
  grp : List SItem
  post : List SItem

/-- Try the pattern exactly at the start of `l`; on success return the length
of the full match and the text of the capture group. -/
def matchPatternAt (p : Pattern) (l : List Char) : Option (Nat × List Char) :=
  matchSItems p.pre l (fun l1 =>
    matchSItems p.grp l1 (fun l2 =>
      matchSItems p.post l2 (fun l3 =>
        some (l.length - l3.length, l1.take (l1.length - l2.length)))))

/-- `string.match(pattern)` restricted to the capture group: capture of the
leftmost match, or `none`. -/
def reFind (p : Pattern) : List Char → Option (List Char)
  | [] => (matchPatternAt p []).map (·.2)
  | c :: cs =>
    match matchPatternAt p (c :: cs) with
    | some r => some r.2
    | none => reFind p cs

/-- `pattern.test(string)`: does the pattern match anywhere? -/
def reTest (p : Pattern) : List Char → Bool
  | [] => (matchPatternAt p []).isSome
  | c :: cs =>
    match matchPatternAt p (c :: cs) with
    | some _ => true
    | none => reTest p cs

/-- Fuel-driven worker for `reMatchAll`; fuel bounds the number of scanning
steps (each step moves at least one character forward). -/
def reMatchAllAux (p : Pattern) : Nat → List Char → List (List Char)
  | 0, _ => []
  | _ + 1, [] => []
  | fuel + 1, c :: cs =>
    match matchPatternAt p (c :: cs) with
    | some r => (c :: cs).take r.1 :: reMatchAllAux p fuel ((c :: cs).drop (max r.1 1))
    | none => reMatchAllAux p fuel cs

/-- `string.match(/pattern/g)`: the full texts of all (leftmost,
non-overlapping) matches. -/
def reMatchAll (p : Pattern) (l : List Char) : List (List Char) :=
  reMatchAllAux p l.length l

/-- First pattern in the list that matches, returning its capture — this is
the JavaScript idiom `s.match(p1) || s.match(p2) || ...` as well as the
`for (const pattern of patterns)` loops. -/
def firstPatternMatch (ps : List Pattern) (l : List Char) : Option (List Char) :=
  ps.findSome? (fun p => reFind p l)

/-- Shorthand for the ubiquitous pattern shape `lit([^"]+)"`. -/
def qCap (lit : String) : Pattern :=
  ⟨[.lit lit.toList], [.plus true ['"']], [.lit ['"']]⟩

/-- Characters of `\s` (the whitespace class). -/
def wsChars : List Char := [' ', '\t', '\n', '\r', '\x0b', '\x0c']

/-- Characters a `.` does not match in a JavaScript regex without the `s`
flag. -/
def dotExcluded : List Char := ['\n', '\r', Char.ofNat 0x2028, Char.ofNat 0x2029]

/-- The class `['"]`. -/
def quotes2 : List Char := [sqChar, '"']

/-- Characters of `\w` together with `-`, i.e. the class `[\w-]`. -/
def wordDashChars : List Char := base62Alphabet.toList ++ ['_', '-']

/-- Characters of the class `[A-Za-z0-9]`. -/
def alnumChars : List Char := base62Alphabet.toList

-- ==========================================================
-- URL classification (route.ts lines 25-65, 1287-1295)
-- ==========================================================

/-- Unanchored substring containment, which is what an unanchored literal
JavaScript regex tests. -/
def containsSub (hay needle : String) : Bool :=
  decide (needle.toList <:+: hay.toList)

/-- The pattern `/facebook\.com\/.*\/videos\//`: its one non-literal piece is
the `.*`, a run of non-line-terminator characters. -/
def fbVideosPattern : Pattern :=
  ⟨[.lit "facebook.com/".toList, .many true dotExcluded, .lit "/videos/".toList], [], []⟩

/-- `isFacebookURL` (route.ts lines 44-54). -/
def isFacebookURL (url : String) : Bool :=
  containsSub url "facebook.com/reel/" ||
  reTest fbVideosPattern url.toList ||
  containsSub url "fb.watch/" ||
  containsSub url "facebook.com/watch/" ||
  containsSub url "facebook.com/share/" ||
  containsSub url "m.facebook.com/share/"

/-- `isFacebookShareURL` (route.ts lines 56-65). -/
def isFacebookShareURL (url : String) : Bool :=
  containsSub url "facebook.com/share/r/" ||
  containsSub url "facebook.com/share/v/" ||
  containsSub url "facebook.com/share/reel/" ||
  containsSub url "facebook.com/share/" ||
  containsSub url "m.facebook.com/share/r/"

/-- The four shortcode patterns of `extractShortcode`, e.g.
`/instagram\.com\/p\/([\w-]+)/`. -/
def shortcodePatterns : List Pattern :=
  [⟨[.lit "instagram.com/p/".toList], [.plus false wordDashChars], []⟩,
   ⟨[.lit "instagram.com/reel/".toList], [.plus false wordDashChars], []⟩,
   ⟨[.lit "instagram.com/reels/".toList], [.plus false wordDashChars], []⟩,
   ⟨[.lit "instagram.com/tv/".toList], [.plus false wordDashChars], []⟩]

/-- `extractShortcode` (route.ts lines 25-38). -/
def extractShortcode (url : String) : Option String :=
  (firstPatternMatch shortcodePatterns url.toList).map String.mk

/-- The share-id pattern `/\/share\/[rv]\/([A-Za-z0-9]+)/i` of the improved
share-URL resolver (route.ts line 96). -/
def shareIdPattern : Pattern :=
  ⟨[.litCI "/share/".toList, .one false ['r', 'v', 'R', 'V'], .lit ['/']],
   [.plus false alnumChars], []⟩

/-- `url.match(shareIdPattern)` giving the captured opaque share id. -/
def extractShareId (url : String) : Option String :=
  (reFind shareIdPattern url.toList).map String.mk

-- ==========================================================
-- Strategy outcomes and the orchestrator loop shared by the
-- Facebook and Instagram resolvers
-- ==========================================================

/-- What one invocation of a strategy can do: throw, or return a value
(`none` models JavaScript `null`/`undefined`). -/
inductive StratResult (α : Type) where
  | threw (msg : String)
  | ok (r : Option α)
deriving DecidableEq, Repr

/-- The envelope each extraction strategy produces (all fields are optional
properties of the returned JavaScript object). -/
structure FetchResult where
  video_url : Option String := none
  thumbnail : Option String := none
  quality : Option String := none
  duration : Option String := none
  method : Option String := none
deriving DecidableEq, Repr

/-- The orchestrator loop over a strategy chain:
`try { const result = await method(); if (result && result.video_url) return result } catch { continue }`.
Used verbatim by `fetchFacebookVideo` (both passes) and by
`fetchInstagramData`'s approach loop. -/
def firstSuccess : List (StratResult FetchResult) → Option FetchResult
  | [] => none
  | .threw _ :: ms => firstSuccess ms
  | .ok none :: ms => firstSuccess ms
  | .ok (some r) :: ms =>
    if truthyStr r.video_url then some r else firstSuccess ms

/-- How many strategies of the chain the loop invokes before stopping. -/
def invokedCount : List (StratResult FetchResult) → Nat
  | [] => 0
  | .threw _ :: ms => 1 + invokedCount ms
  | .ok none :: ms => 1 + invokedCount ms
  | .ok (some r) :: ms =>
    if truthyStr r.video_url then 1 else 1 + invokedCount ms

/-- A strategy invocation that does not short-circuit the chain: it threw,
returned null, or returned a result without a (truthy) video URL. -/
def advancesChain : StratResult FetchResult → Bool
  | .threw _ => true
  | .ok none => true
  | .ok (some r) => ! truthyStr r.video_url

-- ==========================================================
-- Facebook extraction strategies (route.ts lines 436-603)
-- ==========================================================

/-- The response a strategy's HTML `fetch` observed: the fetch threw, the
response was not ok, or a body was returned. -/
inductive HttpResp where
  | threw (msg : String)
  | notOk (status : Nat)
  | ok (body : String)
deriving DecidableEq, Repr

/-- The HD-tier patterns of `fetchViaFacebookAPI` (route.ts lines 460-466),
in source order. -/
def hdPatternsFBAPI : List Pattern :=
  [qCap "\"playable_url_quality_hd\":\"",
   qCap "\"browser_native_hd_url\":\"",
   qCap "\"hd_src\":\"",
   qCap "hd_src:\"",
   qCap "\"playable_url\":\""]

/-- The SD-tier fallback patterns of `fetchViaFacebookAPI` (route.ts lines
507-512), in source order. -/
def sdPatternsFBAPI : List Pattern :=
  [qCap "\"browser_native_sd_url\":\"",
   qCap "\"sd_src\":\"",
   qCap "sd_src:\"",
   qCap "\"video_url\":\""]

/-- The thumbnail patterns of `fetchViaFacebookAPI` (route.ts lines 469-475),
in source order. -/
def thumbnailPatternsFBAPI : List Pattern :=
  [qCap "\"preferred_thumbnail\":\x7b\"image\":\x7b\"uri\":\"",
   qCap "\"thumbnailImage\":\x7b\"uri\":\"",
   ⟨[.lit "\"og:image\"".toList, .many true ['>'], .lit "content=\"".toList],
    [.plus true ['"']], [.lit ['"']]⟩,
   qCap "\"thumbnail_url\":\"",
   ⟨[.lit "property=\"og:image\"".toList, .many true ['>'], .lit "content=\"".toList],
    [.plus true ['"']], [.lit ['"']]⟩]

/-- The video-URL unescaping chain
`.replace(/\\u0025/g,"%").replace(/\\u0026/g,"&").replace(/\\u002F/g,"/").replace(/\\/g,"")`. -/
def fbCleanVideo (cap : List Char) : List Char :=
  replaceAll ['\\'] []
    (replaceAll "\\u002F".toList ['/']
      (replaceAll "\\u0026".toList ['&']
        (replaceAll "\\u0025".toList ['%'] cap)))

/-- The thumbnail cleaning chain `.replace(/\\/g,"").replace(/&amp;/g,"&")`. -/
def fbCleanThumb (cap : List Char) : List Char :=
  replaceAll "&amp;".toList ['&'] (replaceAll ['\\'] [] cap)

/-- `fetchViaFacebookAPI` (route.ts lines 436-539) as a function of the
response its single `fetch` of the embed-player page observed.  Its whole
body is wrapped in `try { ... } catch { }` followed by `return null`, so a
thrown fetch yields `none`. -/
def fetchViaFacebookAPI (resp : HttpResp) : Option FetchResult :=
  match resp with
  | .threw _ => none
  | .notOk _ => none
  | .ok html =>
    let h := html.toList
    let thumbnail := (firstPatternMatch thumbnailPatternsFBAPI h).map
      (fun cap => String.mk (fbCleanThumb cap))
    match firstPatternMatch hdPatternsFBAPI h with
    | some cap =>
      some { video_url := some (String.mk (fbCleanVideo cap)),
             thumbnail := thumbnail, quality := some "HD" }
    | none =>
      match firstPatternMatch sdPatternsFBAPI h with
      | some cap =>
        some { video_url := some (String.mk (fbCleanVideo cap)),
               thumbnail := thumbnail, quality := some "SD" }
      | none => none

/-- The JSON body the delegated external resolver (Cobalt) returns. -/
structure CobaltData where
  status : String
  url : Option String := none
  thumb : Option String := none
deriving DecidableEq, Repr

/-- The response a `fetch` of the Cobalt API observed. -/
inductive CobaltResp where
  | threw (msg : String)
  | notOk (status : Nat)
  | ok (data : CobaltData)
deriving DecidableEq, Repr

/-- `fetchViaCobalAPI` (route.ts lines 541-603) as a function of the response
its Cobalt call observed. -/
def fetchViaCobalAPI (resp : CobaltResp) : Option FetchResult :=
  match resp with
  | .threw _ => none
  | .notOk _ => none
  | .ok data =>
    if data.status = "error" then none
    else if data.status = "redirect" ∨ data.status = "stream" ∨ data.status = "tunnel" then
      some { video_url := data.url,
             thumbnail := if truthyStr data.thumb then data.thumb else none,
             quality := some "HD" }
    else if truthyStr data.url then
      some { video_url := data.url,
             thumbnail := if truthyStr data.thumb then data.thumb else none,
             quality := some "HD" }
    else none

-- ==========================================================
-- Multi-strategy Facebook share-URL resolver
-- (route.ts lines 92-324)
-- ==========================================================

/-- `try { ... } catch (e) { log }` around one resolver strategy: a thrown
error is swallowed and the chain advances; `.ok none` is an inconclusive
strategy that reached its own fall-through. -/
def stratCatch (s : Except String (Option String)) : Option String :=
  match s with
  | .error _ => none
  | .ok r => r

/-- A strategy that does not resolve the URL: it threw (timeout, network
error, decode error, ...) or it ran to its fall-through without a hit. -/
def stratInconclusive (s : Except String (Option String)) : Prop :=
  (∃ msg, s = .error msg) ∨ s = .ok none

/-- The network interactions of one run of
`resolveFacebookShareURL_Improved`.  `strat1Net`/`strat2Net` record whether
the Cobalt probe threw, or reported a resolvable status with a URL;
`strat3` records the boundary outcome of the redirect-tracking strategy
(its internal fetches, header checks and markup scans are summarised by the
canonical URL it would return, if any); `strat4Net` records the automation
backend's answer. -/
structure ResolveEnv where
  strat1Net : Except String Bool
  strat2Net : Except String Bool
  strat3 : Except String (Option String)
  strat4Net : Except String (Option String)
  backendConfigured : Bool
deriving Repr

/-- Strategy 1 (direct Cobalt probe, route.ts lines 106-137): on a positive
probe it returns the *original* URL ("return url — Cobalt can handle it"). -/
def strat1Compute (url : String) (net : Except String Bool) :
    Except String (Option String) :=
  match net with
  | .error e => .error e
  | .ok true => .ok (some url)
  | .ok false => .ok none

/-- Strategy 2 (base-62 share-id transcoding, route.ts lines 142-182): decode
the share id — a decode error is a throw inside the strategy's `try` — build
`https://www.facebook.com/reel/{decimal}` and accept it if the re-probe is
positive. -/
def strat2Compute (shareId : String) (net : Except String Bool) :
    Except String (Option String) :=
  match base62ToDecimal shareId with
  | .error e => .error e
  | .ok decimalId =>
    match net with
    | .error e => .error e
    | .ok true => .ok (some ("https://www.facebook.com/reel/" ++ decimalId))
    | .ok false => .ok none

/-- Strategy 4 (automation backend, route.ts lines 288-304): accept the
backend's `resolved_url` only when it is canonical (not itself a share URL,
and a recognised Facebook URL). -/
def strat4Compute (net : Except String (Option String)) :
    Except String (Option String) :=
  match net with
  | .error e => .error e
  | .ok none => .ok none
  | .ok (some u) =>
    .ok (if ¬ isFacebookShareURL u ∧ isFacebookURL u then some u else none)

/-- `resolveFacebookShareURL_Improved` (route.ts lines 92-319): run the four
strategies in order, each behind its own `try`/`catch`; when none resolves,
return the original URL unchanged (strategy 5).  Strategy 2 only runs when a
share id was extracted; strategy 4 only when a backend is configured. -/
def resolveFacebookShareURL_Improved (url : String) (env : ResolveEnv) : String :=
  match stratCatch (strat1Compute url env.strat1Net) with
  | some u => u
  | none =>
    match (match extractShareId url with
           | some sid => stratCatch (strat2Compute sid env.strat2Net)
           | none => none) with
    | some u => u
    | none =>
      match stratCatch env.strat3 with
      | some u => u
      | none =>
        match (if env.backendConfigured
               then stratCatch (strat4Compute env.strat4Net)
               else none) with
        | some u => u
        | none => url

/-- The backward-compatibility wrapper `resolveFacebookShareURL`
(route.ts lines 322-324). -/
def resolveFacebookShareURL (url : String) (env : ResolveEnv) : String :=
  resolveFacebookShareURL_Improved url env

-- ==========================================================
-- Facebook orchestrator (route.ts lines 326-433) and the
-- POST route's Facebook branch (route.ts lines 1254-1280)
-- ==========================================================

/-- Everything one run of `fetchFacebookVideo` can observe from the network:
the resolver's environment, the responses behind `fetchViaFacebookAPI` and
`fetchViaCobalAPI` on the resolved URL, the boundary outcomes of the two
strategies whose internals are not needed by any claim
(`fetchViaFacebookDirect`, `fetchViaSnapSave` — both wrap their bodies in
`try`/`catch` + `return null`, but the orchestrator guards against throws
anyway), the second-pass responses against the original share URL, and the
Open Graph image the thumbnail probe `extractFacebookThumbnail(originalUrl)`
would return (`none` when it fails or finds nothing — it never throws, its
body being wrapped in `try { ... } catch { return null }`). -/
structure FBEnv where
  resolve : ResolveEnv
  fbApiResp : HttpResp
  cobaltResp : CobaltResp
  directOutcome : StratResult FetchResult
  snapOutcome : StratResult FetchResult
  cobaltRespOrig : CobaltResp
  snapOutcomeOrig : StratResult FetchResult
  thumbnailProbe : Option String
deriving Repr

/-- The first-pass method chain of `fetchFacebookVideo` (route.ts lines
345-350), evaluated against the resolved URL. -/
def methodList (env : FBEnv) : List (StratResult FetchResult) :=
  [.ok (fetchViaFacebookAPI env.fbApiResp),
   .ok (fetchViaCobalAPI env.cobaltResp),
   env.directOutcome,
   env.snapOutcome]

/-- The second-pass chain (route.ts line 380), evaluated against the original
share URL. -/
def secondPassList (env : FBEnv) : List (StratResult FetchResult) :=
  [.ok (fetchViaCobalAPI env.cobaltRespOrig),
   env.snapOutcomeOrig]

/-- The message of the error `fetchFacebookVideo` throws on exhaustion
(route.ts line 402). -/
def fbErrorMsg : String :=
  "Unable to fetch Facebook video. The post may be private or unavailable."

/-- The winning result of a pass, after the thumbnail backfill of route.ts
lines 359-368: when the winner lacks a (truthy) thumbnail, probe once and
attach the probe's image if the probe returned one; the second component
counts the `extractFacebookThumbnail` calls made. -/
def finishWin (r : FetchResult) (probe : Option String) : FetchResult × Nat :=
  if truthyStr r.thumbnail then (r, 0)
  else
    match probe with
    | some t => (if t ≠ "" then { r with thumbnail := some t } else r, 1)
    | none => (r, 1)

instance {α β : Type} [DecidableEq α] [DecidableEq β] : DecidableEq (Except α β) :=
  fun x y =>
    match x, y with
    | .error a, .error b =>
      if h : a = b then .isTrue (by rw [h]) else .isFalse (by simp [h])
    | .ok a, .ok b =>
      if h : a = b then .isTrue (by rw [h]) else .isFalse (by simp [h])
    | .error _, .ok _ => .isFalse (by simp)
    | .ok _, .error _ => .isFalse (by simp)

/-- The outcome of one `fetchFacebookVideo` run: the returned result or the
thrown error, together with the number of thumbnail-probe calls made. -/
structure FBRun where
  response : Except String FetchResult
  probeCalls : Nat
deriving DecidableEq, Repr

/-- `fetchFacebookVideo` (route.ts lines 326-403): resolve share-style URLs,
run the first-pass chain against the resolved URL, backfill the thumbnail of
a winner, otherwise — when the input was a share URL that actually resolved
to something different — run the reduced second pass against the original
URL, and throw `fbErrorMsg` when everything failed. -/
def fetchFacebookVideo (url : String) (env : FBEnv) : FBRun :=
  let originalUrl := url
  let resolvedUrl :=
    if isFacebookShareURL url then resolveFacebookShareURL_Improved url env.resolve
    else url
  match firstSuccess (methodList env) with
  | some r =>
    let fin := finishWin r env.thumbnailProbe
    ⟨.ok fin.1, fin.2⟩
  | none =>
    if isFacebookShareURL originalUrl ∧ originalUrl ≠ resolvedUrl then
      match firstSuccess (secondPassList env) with
      | some r =>
        let fin := finishWin r env.thumbnailProbe
        ⟨.ok fin.1, fin.2⟩
      | none => ⟨.error fbErrorMsg, 0⟩
    else ⟨.error fbErrorMsg, 0⟩

/-- The JSON envelope + HTTP status the route returns. -/
structure ApiResponse where
  success : Bool
  error : Option String
  status : Nat
  video : Option FetchResult
deriving DecidableEq, Repr

/-- The Facebook branch of the `POST` handler (route.ts lines 1254-1280):
an exception from `fetchFacebookVideo` is caught and surfaced as a status-500
envelope carrying the error's message; a returned result without a video URL
would get the 404 envelope; a result with one is the 200 success envelope. -/
def postFacebookBranch (url : String) (env : FBEnv) : ApiResponse :=
  match (fetchFacebookVideo url env).response with
  | .ok r =>
    if ¬ truthyStr r.video_url then
      ⟨false, some fbErrorMsg, 404, none⟩
    else
      ⟨true, none, 200, some r⟩
  | .error msg => ⟨false, some msg, 500, none⟩

/-- The rate-limit gate at the top of `POST` (route.ts lines 1232-1240):
when `checkRateLimit` denies, the request is answered immediately with the
429 envelope — before any URL validation or resolution work. -/
def rateLimitGate (now : Nat) (rl : Option RateLimitRecord) :
    Option ApiResponse × Option RateLimitRecord :=
  let step := checkRateLimit now rl
  if step.1 then (none, step.2)
  else
    (some ⟨false, some "Too many requests. Please wait a moment and try again.", 429, none⟩,
     step.2)

-- ==========================================================
-- Instagram markup/JSON extractors (route.ts lines 1102-1227)
-- ==========================================================

/-- The pattern `videoUrl['"]\s*:\s*['"]([^'"]+)['"]`. -/
def videoUrlLoosePattern : Pattern :=
  ⟨[.lit "videoUrl".toList, .one false quotes2, .many false wsChars,
    .lit [':'], .many false wsChars, .one false quotes2],
   [.plus true quotes2], [.one false quotes2]⟩

/-- The pattern `thumbnailUrl['"]\s*:\s*['"]([^'"]+)['"]`. -/
def thumbnailUrlLoosePattern : Pattern :=
  ⟨[.lit "thumbnailUrl".toList, .one false quotes2, .many false wsChars,
    .lit [':'], .many false wsChars, .one false quotes2],
   [.plus true quotes2], [.one false quotes2]⟩

/-- Pattern shape `lit([^"]+\.mp4[^"]*)"`. -/
def mp4Cap (lit : String) : Pattern :=
  ⟨[.lit lit.toList],
   [.plus true ['"'], .lit ".mp4".toList, .many true ['"']],
   [.lit ['"']]⟩

/-- The thirteen video-URL patterns of `extractVideoFromHTML` (route.ts lines
1149-1163), in source order. -/
def igHtmlVideoPatterns : List Pattern :=
  [qCap "\"video_url\":\"",
   qCap "\"playback_url\":\"",
   mp4Cap "\"src\":\"",
   qCap "\"videoUrl\":\"",
   ⟨[.lit "property=\"og:video:secure_url\"".toList, .many true ['>'],
     .lit "content=\"".toList], [.plus true ['"']], [.lit ['"']]⟩,
   ⟨[.lit "property=\"og:video\"".toList, .many true ['>'],
     .lit "content=\"".toList], [.plus true ['"']], [.lit ['"']]⟩,
   ⟨[.lit "meta".toList, .many true ['>'], .lit "property=\"og:video\"".toList,
     .many true ['>'], .lit "content=\"".toList], [.plus true ['"']], [.lit ['"']]⟩,
   qCap "\"video_versions\":[\x7b\"url\":\"",
   ⟨[.lit "\"video_dash_manifest\":\"".toList, .many true ['"'],
     .lit "\",\"video_url\":\"".toList], [.plus true ['"']], [.lit ['"']]⟩,
   videoUrlLoosePattern,
   mp4Cap "\"contentUrl\":\"",
   mp4Cap "src=\"",
   mp4Cap "\"url\":\""]

/-- The seven thumbnail patterns of `extractVideoFromHTML` (route.ts lines
1165-1173), in source order. -/
def igHtmlThumbPatterns : List Pattern :=
  [qCap "\"display_url\":\"",
   qCap "\"thumbnail_src\":\"",
   qCap "\"thumbnail_url\":\"",
   ⟨[.lit "property=\"og:image\"".toList, .many true ['>'],
     .lit "content=\"".toList], [.plus true ['"']], [.lit ['"']]⟩,
   ⟨[.lit "meta".toList, .many true ['>'], .lit "property=\"og:image\"".toList,
     .many true ['>'], .lit "content=\"".toList], [.plus true ['"']], [.lit ['"']]⟩,
   qCap "\"image_versions2\":\x7b\"candidates\":[\x7b\"url\":\"",
   thumbnailUrlLoosePattern]

/-- The script-tag pattern `/<script[^>]*>(.*?)<\/script>/g`. -/
def scriptPattern : Pattern :=
  ⟨[.lit "<script".toList, .many true ['>'], .lit ['>']],
   [.manyLazy true dotExcluded],
   [.lit "</script>".toList]⟩

/-- The validation `url.includes('.mp4') || url.includes('video') || url.includes('scontent')`. -/
def plausibleVideo (cap : List Char) : Bool :=
  decide (".mp4".toList <:+: cap) ||
  decide ("video".toList <:+: cap) ||
  decide ("scontent".toList <:+: cap)

/-- The video-pattern loop of `extractVideoFromHTML`: first pattern whose
(leftmost) capture passes the validation; a capture that fails validation
moves on to the next pattern. -/
def findValidVideo (l : List Char) : Option (List Char) :=
  igHtmlVideoPatterns.findSome? (fun p =>
    match reFind p l with
    | some cap => if plausibleVideo cap then some cap else none
    | none => none)

/-- The entity-cleaning prelude of `extractVideoFromHTML`:
`html.replace(/\\u0026/g,"&").replace(/\\u002F/g,"/").replace(/\\/g,"")`. -/
def cleanHtmlOf (html : String) : List Char :=
  replaceAll ['\\'] []
    (replaceAll "\\u002F".toList ['/']
      (replaceAll "\\u0026".toList ['&'] html.toList))

/-- The video URL `extractVideoFromHTML` settles on: scan the video patterns
over the cleaned markup; when none validated, re-scan each `<script>` tag's
full match text. -/
def videoUrlOfHtml (html : String) : Option (List Char) :=
  match findValidVideo (cleanHtmlOf html) with
  | some v => some v
  | none => (reMatchAll scriptPattern (cleanHtmlOf html)).findSome? findValidVideo

/-- `extractVideoFromHTML` (route.ts lines 1144-1227): clean the markup, scan
the video patterns (then, if none validated, re-scan each `<script>` tag's
full match text), scan the thumbnail patterns, and — whenever a video URL was
found — return it with `quality: "HD"` hard-coded. -/
def extractVideoFromHTML (html : String) : Option FetchResult :=
  match videoUrlOfHtml html with
  | none => none
  | some v =>
    some { video_url := some (String.mk v),
           thumbnail := (firstPatternMatch igHtmlThumbPatterns (cleanHtmlOf html)).map String.mk,
           quality := some "HD" }

/-- The media-item JSON shape `extractVideoFromJSON` navigates.  Numbers in
the source are raw seconds counts; they are modelled as `Nat` (`0` is falsy
in JavaScript and is modelled so). -/
structure MediaItem where
  video_versions : List String := []
  image_candidates : List String := []
  display_url : Option String := none
  thumbnail_src : Option String := none
  video_url : Option String := none
  video_duration : Option Nat := none
deriving DecidableEq, Repr

/-- The value of `data?.items || data?.graphql?.shortcode_media || data?.data?.shortcode_media`:
an array of items, a single item object, or nothing. -/
inductive JSONItems where
  | arr (items : List MediaItem)
  | single (item : MediaItem)
  | missing
deriving DecidableEq, Repr

/-- The duration formatter of `extractVideoFromJSON`:
`${Math.floor(d/60)}:${String(Math.floor(d%60)).padStart(2,"0")}`. -/
def formatDuration (d : Nat) : String :=
  Nat.repr (d / 60) ++ ":" ++ padStart2Zero (Nat.repr (d % 60))

/-- `item.video_duration ? formatted : undefined` — note `0` is falsy. -/
def jsDuration (d : Option Nat) : Option String :=
  match d with
  | none => none
  | some v => if v = 0 then none else some (formatDuration v)

/-- `extractVideoFromJSON` (route.ts lines 1102-1142).  An empty array takes
neither branch's `return` (JavaScript `Array.isArray(items) && items.length > 0`
fails, and the single-item branch reads `items.video_url` which an array does
not have), yielding `null`. -/
def extractVideoFromJSON : JSONItems → Option FetchResult
  | .arr [] => none
  | .arr (item :: _) =>
    match item.video_versions with
    | v :: _ =>
      some { video_url := some v,
             thumbnail := jsOr item.image_candidates.head? item.display_url,
             quality := some "HD",
             duration := jsDuration item.video_duration }
    | [] => none
  | .single item =>
    if truthyStr item.video_url then
      some { video_url := item.video_url,
             thumbnail := jsOr item.display_url item.thumbnail_src,
             quality := some "HD",
             duration := jsDuration item.video_duration }
    else none
  | .missing => none

-- ==========================================================
-- Instagram extraction strategies and orchestrator
-- (route.ts lines 802-1099)
-- ==========================================================

/-- The unescaping chain shared by the Instagram strategies:
`.replace(/\\u0026/g,"&").replace(/\\u002F/g,"/").replace(/\\/g,"")`. -/
def igCleanUrl (cap : List Char) : List Char :=
  replaceAll ['\\'] []
    (replaceAll "\\u002F".toList ['/']
      (replaceAll "\\u0026".toList ['&'] cap))

/-- The three video patterns of `fetchViaInstagramAPI` (route.ts lines
904-906). -/
def igEmbedVideoPatterns : List Pattern :=
  [qCap "\"video_url\":\"", mp4Cap "\"src\":\"", videoUrlLoosePattern]

/-- The three thumbnail patterns of `fetchViaInstagramAPI` (route.ts lines
908-910). -/
def igEmbedThumbPatterns : List Pattern :=
  [qCap "\"display_url\":\"", qCap "\"thumbnail_url\":\"", thumbnailUrlLoosePattern]

/-- `fetchViaInstagramAPI` (route.ts lines 886-926) as a function of the
embed-endpoint response it observed. -/
def fetchViaInstagramAPI (resp : HttpResp) : Option FetchResult :=
  match resp with
  | .threw _ => none
  | .notOk _ => none
  | .ok html =>
    let h := html.toList
    match firstPatternMatch igEmbedVideoPatterns h with
    | none => none
    | some cap =>
      let thumb := (firstPatternMatch igEmbedThumbPatterns h).map
        (fun c => String.mk (igCleanUrl c))
      some { video_url := some (String.mk (igCleanUrl cap)),
             thumbnail := thumb, quality := some "HD" }

/-- `tryFetchWithUserAgent` / `tryEmbedApproach` (route.ts lines 1052-1084):
no `try`/`catch` of their own, so a thrown fetch propagates to the caller;
otherwise parse the body with `extractVideoFromHTML`. -/
def tryFetchHtml (resp : HttpResp) : StratResult FetchResult :=
  match resp with
  | .threw m => .threw m
  | .notOk _ => .ok none
  | .ok html => .ok (extractVideoFromHTML html)

/-- The network responses one `fetchInstagramData` run can observe. -/
structure IGEnv where
  backendSuccess : Bool
  backendVideoUrl : Option String
  backendMethod : String
  backendReachable : Bool
  embedCaptioned : HttpResp
  ua1 : HttpResp
  ua2 : HttpResp
  ua3 : HttpResp
  ua4 : HttpResp
  embedPlain : HttpResp
  oembedResp : HttpResp
  oembedHtml : Option String
  oembedThumb : Option String
  altService : HttpResp
deriving Repr

/-- One guarded attempt inside `fetchViaPageScrape`: a throw is caught (the
inner `catch { continue }` for the User-Agent loop, the body's own `catch`
for the embed attempt), and only a result with a truthy `video_url` is kept. -/
def uaAttempt (resp : HttpResp) : Option FetchResult :=
  match tryFetchHtml resp with
  | .threw _ => none
  | .ok none => none
  | .ok (some r) => if truthyStr r.video_url then some r else none

/-- `fetchViaPageScrape` (route.ts lines 1020-1050): scrape the post URL under
four User-Agents, then — when a shortcode is known — one embed attempt. -/
def fetchViaPageScrape (env : IGEnv) (shortcode : Option String) :
    Option FetchResult :=
  match [env.ua1, env.ua2, env.ua3, env.ua4].findSome? uaAttempt with
  | some r => some r
  | none =>
    match shortcode with
    | none => none
    | some _ => uaAttempt env.embedPlain

/-- The two video patterns of `fetchViaOEmbed` (route.ts lines 944-945). -/
def oembedVideoPatterns : List Pattern :=
  [mp4Cap "src=\"", qCap "\"video_url\":\""]

/-- The three video patterns of `fetchViaAlternativeService` (route.ts lines
995-997). -/
def altVideoPatterns : List Pattern :=
  [qCap "\"video_url\":\"", videoUrlLoosePattern, mp4Cap "\"src\":\""]

/-- The two thumbnail patterns of `fetchViaAlternativeService` (route.ts lines
1002-1003). -/
def altThumbPatterns : List Pattern :=
  [qCap "\"display_url\":\"", qCap "\"thumbnail_url\":\""]

/-- `fetchViaAlternativeService` (route.ts lines 973-1018): needs a
shortcode, scrapes the canonical post URL with a mobile-app User-Agent, and
tags any hit `quality: "HD"`. -/
def fetchViaAlternativeService (env : IGEnv) (shortcode : Option String) :
    Option FetchResult :=
  match shortcode with
  | none => none
  | some _ =>
    match env.altService with
    | .threw _ => none
    | .notOk _ => none
    | .ok html =>
      let h := html.toList
      match firstPatternMatch altVideoPatterns h with
      | none => none
      | some cap =>
        let thumb := (firstPatternMatch altThumbPatterns h).map
          (fun c => String.mk (igCleanUrl c))
        some { video_url := some (String.mk (igCleanUrl cap)),
               thumbnail := thumb, quality := some "HD" }

/-- `fetchViaOEmbed` (route.ts lines 928-971): on an ok oEmbed response, look
for a video tag inside `data.html` (returned raw, tagged `HD`); otherwise
return a bare-thumbnail object (no `video_url`, no `quality`) when
`data.thumbnail_url` is truthy; otherwise — and also when the response was
not ok — fall through to `fetchViaAlternativeService`; a throw anywhere is
caught to `null`. -/
def fetchViaOEmbed (env : IGEnv) (shortcode : Option String) :
    Option FetchResult :=
  match env.oembedResp with
  | .threw _ => none
  | .notOk _ => fetchViaAlternativeService env shortcode
  | .ok _ =>
    let videoMatch :=
      if truthyStr env.oembedHtml then
        firstPatternMatch oembedVideoPatterns (env.oembedHtml.getD "").toList
      else none
    match videoMatch with
    | some cap =>
      some { video_url := some (String.mk cap),
             thumbnail := env.oembedThumb, quality := some "HD" }
    | none =>
      if truthyStr env.oembedThumb then
        some { thumbnail := env.oembedThumb }
      else fetchViaAlternativeService env shortcode

/-- The message `fetchInstagramData` throws on exhaustion (route.ts line 850). -/
def igErrorMsg : String :=
  "Unable to fetch video. The post may be private or unavailable."

/-- The delegated Puppeteer-backend attempt at the top of
`fetchInstagramData`: accepted only when the backend was reachable, reported
`data.success` and a truthy `data.videoUrl`; tagged `HD` with no thumbnail. -/
def igBackendResult (env : IGEnv) : Option FetchResult :=
  if env.backendReachable ∧ env.backendSuccess ∧ truthyStr env.backendVideoUrl then
    some { video_url := env.backendVideoUrl, thumbnail := none,
           quality := some "HD",
           method := some ("puppeteer-" ++ env.backendMethod) }
  else none

/-- `fetchInstagramData` (route.ts lines 802-851): first the delegated
Puppeteer backend, then the approach chain
`[fetchViaInstagramAPI, fetchViaPageScrape, fetchViaOEmbed]` driven by the
same orchestrator loop as the Facebook resolver; exhaustion throws. -/
def fetchInstagramData (url : String) (env : IGEnv) : Except String FetchResult :=
  match igBackendResult env with
  | some r => .ok r
  | none =>
    match extractShortcode url with
    | none => .error "Invalid Instagram URL"
    | some sc =>
      let approaches : List (StratResult FetchResult) :=
        [.ok (fetchViaInstagramAPI env.embedCaptioned),
         .ok (fetchViaPageScrape env (some sc)),
         .ok (fetchViaOEmbed env (some sc))]
      match firstSuccess approaches with
      | some r => .ok r
      | none => .error igErrorMsg

-- ==========================================================
-- Helper lemmas
-- ==========================================================

/-- If `findSome?` produced a value, some element of the list produced it. -/
theorem findSome?_exists {α β : Type} (f : α → Option β) :
    ∀ (l : List α) (b : β), l.findSome? f = some b → ∃ a ∈ l, f a = some b := by
  intro l
  induction l with
  | nil => intro b h; simp [List.findSome?] at h
  | cons x xs ih =>
    intro b h
    rw [List.findSome?_cons] at h
    cases hx : f x with
    | some v =>
      rw [hx] at h
      exact ⟨x, by simp, by rw [hx]; exact h⟩
    | none =>
      rw [hx] at h
      obtain ⟨a, ha, hfa⟩ := ih b h
      exact ⟨a, by simp [ha], hfa⟩

/-- A successful chain result came from a strategy that returned it, and it
carries a truthy video URL. -/
theorem firstSuccess_eq_some :
    ∀ (l : List (StratResult FetchResult)) (r : FetchResult),
      firstSuccess l = some r →
      (StratResult.ok (some r)) ∈ l ∧ truthyStr r.video_url = true := by
  intro l
  induction l with
  | nil => intro r h; simp [firstSuccess] at h
  | cons m ms ih =>
    intro r h
    cases m with
    | threw msg =>
      obtain ⟨h1, h2⟩ := ih r h
      exact ⟨by simp [h1], h2⟩
    | ok o =>
      cases o with
      | none =>
        obtain ⟨h1, h2⟩ := ih r h
        exact ⟨by simp [h1], h2⟩
      | some r2 =>
        by_cases ht : truthyStr r2.video_url = true
        · rw [show firstSuccess (.ok (some r2) :: ms) = some r2 by
            simp [firstSuccess, ht]] at h
          cases h
          exact ⟨by simp, ht⟩
        · rw [show firstSuccess (.ok (some r2) :: ms) = firstSuccess ms by
            simp [firstSuccess]; intro hc; exact absurd hc ht] at h
          obtain ⟨h1, h2⟩ := ih r h
          exact ⟨by simp [h1], h2⟩

/-- A strategy failure (`stratInconclusive`) is swallowed by the strategy's
`catch`. -/
theorem stratCatch_of_inconclusive (s : Except String (Option String))
    (h : stratInconclusive s) : stratCatch s = none := by
  rcases h with ⟨msg, rfl⟩ | rfl <;> rfl

-- ==========================================================
-- C2: rate-limit window behaviour
-- ==========================================================

/-- After a sequence of in-window calls starting from a counter `c` that
leaves room in the budget, every call succeeds and the counter advances by
the number of calls, with `lastReset` untouched. -/
theorem runCalls_allTrue (t0 : Nat) (ts : List Nat) :
    ∀ c : Nat, c + ts.length ≤ RATE_LIMIT →
      (∀ t ∈ ts, t - t0 ≤ RATE_LIMIT_WINDOW) →
      runCalls ts (some ⟨c, t0⟩) =
        (List.replicate ts.length true, some ⟨c + ts.length, t0⟩) := by
  induction ts with
  | nil => intro c _ _; simp [runCalls]
  | cons t ts ih =>
    intro c hle hwin
    have hw : t - t0 ≤ RATE_LIMIT_WINDOW := hwin t (by simp)
    have h1 : ¬ (t - t0 > RATE_LIMIT_WINDOW) := by omega
    have h2 : ¬ (c ≥ RATE_LIMIT) := by
      simp only [List.length_cons] at hle; omega
    simp only [runCalls, checkRateLimit, if_neg h1, if_neg h2]
    rw [ih (c + 1) (by simp only [List.length_cons] at hle; omega)
      (fun x hx => hwin x (by simp [hx]))]
    simp only [List.length_cons, List.replicate_succ]
    have harith : c + 1 + ts.length = c + (ts.length + 1) := by omega
    rw [harith]

/-- C2: for every client key, exactly `RATE_LIMIT` (10) `checkRateLimit`
calls within one rolling window return `true` (here: a fresh key at `t0`
followed by 9 further in-window calls, all succeeding with the counter full
afterwards); the next in-window call returns `false` and is answered by the
`POST` gate with the 429 envelope before any resolution work; and a call
after the window has elapsed returns `true` again with the stored counter
freshly reset to 1. -/
theorem rateLimit_window_behavior (t0 : Nat) (ts : List Nat)
    (hlen : ts.length = RATE_LIMIT - 1)
    (hwin : ∀ t ∈ ts, t - t0 ≤ RATE_LIMIT_WINDOW)
    (tNext tAfter : Nat)
    (hNext : tNext - t0 ≤ RATE_LIMIT_WINDOW)
    (hAfter : RATE_LIMIT_WINDOW < tAfter - t0) :
    runCalls (t0 :: ts) none =
      (List.replicate RATE_LIMIT true, some ⟨RATE_LIMIT, t0⟩) ∧
    checkRateLimit tNext (some ⟨RATE_LIMIT, t0⟩) = (false, some ⟨RATE_LIMIT, t0⟩) ∧
    rateLimitGate tNext (some ⟨RATE_LIMIT, t0⟩) =
      (some ⟨false, some "Too many requests. Please wait a moment and try again.", 429, none⟩,
       some ⟨RATE_LIMIT, t0⟩) ∧
    checkRateLimit tAfter (some ⟨RATE_LIMIT, t0⟩) = (true, some ⟨1, tAfter⟩) := by
  have hfalse : checkRateLimit tNext (some ⟨RATE_LIMIT, t0⟩) =
      (false, some ⟨RATE_LIMIT, t0⟩) := by
    simp only [checkRateLimit, if_neg (not_lt.mpr hNext), if_pos (le_refl RATE_LIMIT)]
  refine ⟨?_, hfalse, ?_, ?_⟩
  · have h0 : checkRateLimit t0 none = (true, some ⟨1, t0⟩) := rfl
    simp only [runCalls, h0]
    rw [runCalls_allTrue t0 ts 1 (by rw [hlen]; decide) hwin]
    simp only [hlen]
    rfl
  · simp only [rateLimitGate, hfalse]
    rfl
  · simp only [checkRateLimit, if_pos (show tAfter - t0 > RATE_LIMIT_WINDOW from hAfter)]

/-- Closed witness for `rateLimit_window_behavior` at a concrete schedule. -/
theorem rateLimit_window_behavior_witness :
    runCalls (0 :: List.replicate 9 30000) none =
      (List.replicate RATE_LIMIT true, some ⟨RATE_LIMIT, 0⟩) ∧
    checkRateLimit 59000 (some ⟨RATE_LIMIT, 0⟩) = (false, some ⟨RATE_LIMIT, 0⟩) ∧
    rateLimitGate 59000 (some ⟨RATE_LIMIT, 0⟩) =
      (some ⟨false, some "Too many requests. Please wait a moment and try again.", 429, none⟩,
       some ⟨RATE_LIMIT, 0⟩) ∧
    checkRateLimit 61000 (some ⟨RATE_LIMIT, 0⟩) = (true, some ⟨1, 61000⟩) :=
  rateLimit_window_behavior 0 (List.replicate 9 30000) (by decide)
    (by decide) 59000 61000 (by decide) (by decide)

-- ==========================================================
-- C9: rate limiter invariants
-- ==========================================================

/-- The stored counter is within budget. -/
def countLe (st : Option RateLimitRecord) : Prop :=
  ∀ r : RateLimitRecord, st = some r → r.count ≤ RATE_LIMIT

/-- One `checkRateLimit` step keeps the counter within budget. -/
theorem checkRateLimit_preserves_countLe (now : Nat) (st : Option RateLimitRecord)
    (h : countLe st) : countLe (checkRateLimit now st).2 := by
  cases st with
  | none =>
    intro r hr
    simp only [checkRateLimit] at hr
    cases hr
    exact (by decide : (1 : Nat) ≤ RATE_LIMIT)
  | some rec =>
    have hrec : rec.count ≤ RATE_LIMIT := h rec rfl
    intro r hr
    simp only [checkRateLimit] at hr
    split at hr
    · cases hr; exact (by decide : (1 : Nat) ≤ RATE_LIMIT)
    · split at hr
      · cases hr; exact hrec
      · rename_i hlt
        cases hr
        simp only [ge_iff_le, not_le] at hlt
        simpa using hlt

/-- Any run of calls keeps the counter within budget. -/
theorem runCalls_countLe (ts : List Nat) :
    ∀ st : Option RateLimitRecord, countLe st → countLe (runCalls ts st).2 := by
  induction ts with
  | nil => intro st h; exact h
  | cons t ts ih =>
    intro st h
    simp only [runCalls]
    exact ih _ (checkRateLimit_preserves_countLe t st h)

/-- C9: starting from an absent entry, no sequence of `checkRateLimit` calls
can drive the stored counter above `RATE_LIMIT`; and a call that returns
`false` leaves the stored record completely unchanged. -/
theorem rateLimiter_invariants :
    (∀ (ts : List Nat) (r : RateLimitRecord),
        (runCalls ts none).2 = some r → r.count ≤ RATE_LIMIT) ∧
    (∀ (now : Nat) (st : Option RateLimitRecord),
        (checkRateLimit now st).1 = false → (checkRateLimit now st).2 = st) := by
  constructor
  · intro ts r hr
    exact runCalls_countLe ts none (by intro x hx; cases hx) r hr
  · intro now st hfalse
    cases st with
    | none => simp [checkRateLimit] at hfalse
    | some rec =>
      simp only [checkRateLimit] at hfalse ⊢
      split at hfalse
      · simp at hfalse
      · split at hfalse
        · rename_i h1 h2
          rw [if_neg h1, if_pos h2]
        · simp at hfalse

/-- Closed witness for `rateLimiter_invariants` at concrete inputs. -/
theorem rateLimiter_invariants_witness :
    (⟨1, 0⟩ : RateLimitRecord).count ≤ RATE_LIMIT ∧
    (checkRateLimit 5 (some ⟨10, 0⟩)).2 = some ⟨10, 0⟩ :=
  ⟨rateLimiter_invariants.1 [0] ⟨1, 0⟩ (by decide),
   rateLimiter_invariants.2 5 (some ⟨10, 0⟩) (by decide)⟩

-- ==========================================================
-- C3: base-62 decoder
-- ==========================================================

/-- The decoding loop computes the most-significant-digit-first positional
value when every character is in the alphabet. -/
theorem base62ToDecimalAux_ok (l : List Char) :
    ∀ acc : Nat, (∀ c ∈ l, (alphabetIndex c).isSome) →
      base62ToDecimalAux l acc = .ok (acc * 62 ^ l.length + msbValue l) := by
  induction l with
  | nil =>
    intro acc _
    simp [base62ToDecimalAux, msbValue]
  | cons c cs ih =>
    intro acc hall
    have hc : (alphabetIndex c).isSome := hall c (by simp)
    obtain ⟨v, hv⟩ := Option.isSome_iff_exists.mp hc
    simp only [base62ToDecimalAux, hv]
    rw [ih (acc * 62 + v) (fun d hd => hall d (by simp [hd]))]
    congr 1
    simp only [msbValue, hv, Option.getD_some, List.length_cons, pow_succ]
    ring

/-- A character outside the alphabet makes the loop throw. -/
theorem base62ToDecimalAux_err (l : List Char) :
    ∀ acc : Nat, (∃ c ∈ l, alphabetIndex c = none) →
      ∃ msg, base62ToDecimalAux l acc = .error msg := by
  induction l with
  | nil =>
    intro acc h
    obtain ⟨c, hc, _⟩ := h
    simp at hc
  | cons c cs ih =>
    intro acc h
    cases hv : alphabetIndex c with
    | none =>
      exact ⟨"Invalid base62 character: " ++ String.singleton c,
        by simp [base62ToDecimalAux, hv]⟩
    | some v =>
      obtain ⟨d, hd, hdnone⟩ := h
      rcases List.mem_cons.mp hd with rfl | hdcs
      · rw [hv] at hdnone; cases hdnone
      · simp only [base62ToDecimalAux, hv]
        exact ih _ ⟨d, hdcs, hdnone⟩

/-- C3: `base62ToDecimal` is the pure most-significant-digit-first base-62
decoder over the fixed `0-9a-zA-Z` alphabet with arbitrary-precision (`Nat`)
arithmetic — determinism over repeated calls is definitional for a pure
function.  Decoding `"0"` yields `"0"`; a fully in-alphabet input decodes to
the decimal rendering of its positional value; an input containing a
character outside the alphabet (such as `"_"`) yields a decoding error and
no decimal string; on `"a_b"` the error carries the offending character. -/
theorem base62_decoder_correct :
    base62ToDecimal "0" = .ok "0" ∧
    (∀ s : String, (∀ c ∈ s.toList, (alphabetIndex c).isSome) →
        base62ToDecimal s = .ok (Nat.repr (msbValue s.toList))) ∧
    (∀ s : String, (∃ c ∈ s.toList, alphabetIndex c = none) →
        ∃ msg, base62ToDecimal s = .error msg) ∧
    base62ToDecimal "a_b" = .error ("Invalid base62 character: " ++ String.singleton '_') := by
  refine ⟨by decide, ?_, ?_, by decide⟩
  · intro s hall
    unfold base62ToDecimal
    rw [base62ToDecimalAux_ok s.toList 0 hall]
    simp [Except.map]
  · intro s hbad
    unfold base62ToDecimal
    obtain ⟨msg, hmsg⟩ := base62ToDecimalAux_err s.toList 0 hbad
    exact ⟨msg, by rw [hmsg]; rfl⟩

/-- Closed witness for `base62_decoder_correct` at concrete inputs. -/
theorem base62_decoder_correct_witness :
    base62ToDecimal "zA9" = .ok (Nat.repr (msbValue "zA9".toList)) ∧
    (∃ msg, base62ToDecimal "1_" = .error msg) :=
  ⟨base62_decoder_correct.2.1 "zA9" (by decide),
   base62_decoder_correct.2.2.1 "1_" ⟨'_', by decide⟩⟩

-- ==========================================================
-- C4: strategy-chain short-circuit
-- ==========================================================

/-- C4: in the orchestrator loop shared by `fetchFacebookVideo` and
`fetchInstagramData`, the first strategy returning a non-null result with a
video URL wins: when every strategy before it fails (throws, returns null,
or returns no video URL), the chain returns exactly that strategy's outcome
and invokes only the strategies up to and including the winner — none of the
later strategies in that pass runs. -/
theorem firstSuccess_cons_advance (m : StratResult FetchResult)
    (ms : List (StratResult FetchResult)) (hm : advancesChain m = true) :
    firstSuccess (m :: ms) = firstSuccess ms := by
  cases m with
  | threw _ => rfl
  | ok o =>
    cases o with
    | none => rfl
    | some r2 =>
      have : truthyStr r2.video_url = false := by simpa [advancesChain] using hm
      simp [firstSuccess, this]

theorem invokedCount_cons_advance (m : StratResult FetchResult)
    (ms : List (StratResult FetchResult)) (hm : advancesChain m = true) :
    invokedCount (m :: ms) = 1 + invokedCount ms := by
  cases m with
  | threw _ => rfl
  | ok o =>
    cases o with
    | none => rfl
    | some r2 =>
      have : truthyStr r2.video_url = false := by simpa [advancesChain] using hm
      simp [invokedCount, this]

theorem strategy_chain_short_circuit
    (pre post : List (StratResult FetchResult)) (r : FetchResult)
    (hpre : ∀ m ∈ pre, advancesChain m = true)
    (hr : truthyStr r.video_url = true) :
    firstSuccess (pre ++ .ok (some r) :: post) = some r ∧
    invokedCount (pre ++ .ok (some r) :: post) = pre.length + 1 := by
  induction pre with
  | nil => simp [firstSuccess, invokedCount, hr]
  | cons m ms ih =>
    have hm := hpre m (by simp)
    obtain ⟨ih1, ih2⟩ := ih (fun x hx => hpre x (by simp [hx]))
    rw [List.cons_append]
    rw [firstSuccess_cons_advance m _ hm, invokedCount_cons_advance m _ hm, ih2, ih1]
    simp only [List.length_cons]
    exact ⟨trivial, by omega⟩

/-- Closed witness for `strategy_chain_short_circuit`: strategy 2 wins after
strategy 1 fails, and strategy 3 is never invoked. -/
theorem strategy_chain_short_circuit_witness :
    firstSuccess [.ok none, .ok (some { video_url := some "https://v.mp4" }),
      .threw "never invoked"] = some { video_url := some "https://v.mp4" } ∧
    invokedCount [.ok none, .ok (some { video_url := some "https://v.mp4" }),
      .threw "never invoked"] = 2 :=
  strategy_chain_short_circuit [.ok none] [.threw "never invoked"]
    { video_url := some "https://v.mp4" } (by decide) (by decide)

-- ==========================================================
-- C5: thumbnail backfill
-- ==========================================================

/-- C5: when the first-pass winner lacks a (truthy) thumbnail, exactly one
best-effort Open Graph probe of the original URL is attempted; a probe that
yields an image URL gets attached as the thumbnail, and a probe that fails
or finds nothing (`extractFacebookThumbnail` returns `null`) still leaves
the overall outcome a success with the thumbnail absent — a missing
thumbnail never turns the success into a failure. -/
theorem fb_thumbnail_backfill (url : String) (env : FBEnv) (r : FetchResult)
    (hwin : firstSuccess (methodList env) = some r)
    (hnothumb : truthyStr r.thumbnail = false) :
    (fetchFacebookVideo url env).probeCalls = 1 ∧
    (∀ t, env.thumbnailProbe = some t → t ≠ "" →
        (fetchFacebookVideo url env).response = .ok { r with thumbnail := some t }) ∧
    (env.thumbnailProbe = none →
        (fetchFacebookVideo url env).response = .ok r) := by
  have hfin : fetchFacebookVideo url env =
      ⟨.ok (finishWin r env.thumbnailProbe).1, (finishWin r env.thumbnailProbe).2⟩ := by
    simp only [fetchFacebookVideo, hwin]
  refine ⟨?_, ?_, ?_⟩
  · rw [hfin]
    simp only [finishWin, hnothumb, Bool.false_eq_true, if_false]
    cases env.thumbnailProbe <;> rfl
  · intro t ht htne
    rw [hfin]
    simp only [finishWin, hnothumb, Bool.false_eq_true, if_false, ht, if_pos htne]
  · intro ht
    rw [hfin]
    simp only [finishWin, hnothumb, Bool.false_eq_true, if_false, ht]

/-- A concrete environment whose first strategy wins without a thumbnail and
whose probe finds one. -/
def envC5 : FBEnv :=
  { resolve := ⟨.error "timeout", .error "timeout", .error "timeout", .error "timeout", false⟩,
    fbApiResp := .ok "x\"hd_src\":\"V\"y",
    cobaltResp := .threw "network",
    directOutcome := .ok none,
    snapOutcome := .ok none,
    cobaltRespOrig := .notOk 400,
    snapOutcomeOrig := .ok none,
    thumbnailProbe := some "https://img.cdn/t.jpg" }

/-- Closed witness for `fb_thumbnail_backfill`. -/
theorem fb_thumbnail_backfill_witness :
    (fetchFacebookVideo "u" envC5).probeCalls = 1 ∧
    (fetchFacebookVideo "u" envC5).response =
      .ok { video_url := some "V", thumbnail := some "https://img.cdn/t.jpg",
            quality := some "HD" } :=
  ⟨(fb_thumbnail_backfill "u" envC5
      { video_url := some "V", quality := some "HD" } (by decide) (by decide)).1,
   (fb_thumbnail_backfill "u" envC5
      { video_url := some "V", quality := some "HD" } (by decide) (by decide)).2.1
     "https://img.cdn/t.jpg" rfl (by decide)⟩

-- ==========================================================
-- C1: what exhaustion surfaces to the caller
-- ==========================================================

/-- An environment in which the share-link resolver and every extraction
strategy of both passes fail. -/
def envAllFail : FBEnv :=
  { resolve := ⟨.error "timeout", .error "timeout", .error "timeout", .error "timeout", true⟩,
    fbApiResp := .notOk 500,
    cobaltResp := .threw "network error",
    directOutcome := .ok none,
    snapOutcome := .ok none,
    cobaltRespOrig := .notOk 400,
    snapOutcomeOrig := .ok none,
    thumbnailProbe := none }

/-- C1 fails on the code: on full exhaustion `fetchFacebookVideo` throws, the
`catch (fbError)` of the POST route's Facebook branch catches it, and the
caller receives HTTP status 500 (with the exhaustion message as the error
field) — not the 404 the claim requires. -/
theorem fb_exhaustion_not_404 :
    postFacebookBranch "https://www.facebook.com/share/r/Ab1/" envAllFail =
      ⟨false,
       some "Unable to fetch Facebook video. The post may be private or unavailable.",
       500, none⟩ ∧
    (postFacebookBranch "https://www.facebook.com/share/r/Ab1/" envAllFail).status ≠ 404 := by
  decide

/-- C1 (amended): whenever every extraction strategy of both passes fails to
produce a video URL, the Facebook branch answers with the single terminal
envelope: `success:false`, HTTP status 500, and the error message
"Unable to fetch Facebook video. The post may be private or unavailable." —
exhaustion is never surfaced as any other status (the in-branch 404 response
is unreachable because `fetchFacebookVideo` throws instead of returning
empty-handed). -/
theorem fb_exhaustion_surfaces_500 (url : String) (env : FBEnv)
    (h1 : firstSuccess (methodList env) = none)
    (h2 : firstSuccess (secondPassList env) = none) :
    postFacebookBranch url env = ⟨false, some fbErrorMsg, 500, none⟩ := by
  have hrun : (fetchFacebookVideo url env).response = .error fbErrorMsg := by
    simp only [fetchFacebookVideo, h1, h2]
    split <;> split <;> rfl
  simp only [postFacebookBranch, hrun]

/-- Closed witness for `fb_exhaustion_surfaces_500`. -/
theorem fb_exhaustion_surfaces_500_witness :
    postFacebookBranch "https://m.facebook.com/share/v/Zz9/" envAllFail =
      ⟨false, some fbErrorMsg, 500, none⟩ :=
  fb_exhaustion_surfaces_500 "https://m.facebook.com/share/v/Zz9/" envAllFail
    (by decide) (by decide)

-- ==========================================================
-- C6: the share-URL resolver swallows every strategy failure
-- and falls back to the original URL
-- ==========================================================

/-- C6: `resolveFacebookShareURL_Improved` is total with respect to its own
strategies: for every environment it returns a plain string (first conjunct —
each strategy's `Except`, including a base-62 decoding error inside strategy
2, is caught at that strategy's own boundary by `stratCatch`, so no
exception reaches the caller), and whenever every strategy is inconclusive
(threw or missed) it returns the original input URL unchanged, so downstream
extraction strategies are still attempted against it. -/
theorem resolver_total_and_falls_back (url : String) (env : ResolveEnv)
    (h1 : stratInconclusive (strat1Compute url env.strat1Net))
    (h2 : ∀ sid, extractShareId url = some sid →
        stratInconclusive (strat2Compute sid env.strat2Net))
    (h3 : stratInconclusive env.strat3)
    (h4 : stratInconclusive (strat4Compute env.strat4Net)) :
    (∀ env2 : ResolveEnv, ∃ out : String,
        resolveFacebookShareURL_Improved url env2 = out) ∧
    resolveFacebookShareURL_Improved url env = url := by
  refine ⟨fun env2 => ⟨_, rfl⟩, ?_⟩
  unfold resolveFacebookShareURL_Improved
  rw [stratCatch_of_inconclusive _ h1, stratCatch_of_inconclusive _ h3]
  have hs2 : (match extractShareId url with
      | some sid => stratCatch (strat2Compute sid env.strat2Net)
      | none => none) = (none : Option String) := by
    cases hsid : extractShareId url with
    | none => rfl
    | some sid => exact stratCatch_of_inconclusive _ (h2 sid hsid)
  rw [hs2]
  cases hb : env.backendConfigured with
  | false => rfl
  | true => rw [if_pos rfl, stratCatch_of_inconclusive _ h4]

/-- An environment in which every resolver strategy throws. -/
def envResolverAllThrow : ResolveEnv :=
  ⟨.error "timeout of 8000ms exceeded", .error "fetch failed",
   .error "aborted", .error "backend unreachable", true⟩

/-- Closed witness for `resolver_total_and_falls_back`: with every strategy
throwing, the resolver still returns the original share URL. -/
theorem resolver_total_and_falls_back_witness :
    resolveFacebookShareURL_Improved "https://m.facebook.com/share/r/XyZ9/"
      envResolverAllThrow = "https://m.facebook.com/share/r/XyZ9/" :=
  (resolver_total_and_falls_back "https://m.facebook.com/share/r/XyZ9/"
    envResolverAllThrow
    (by exact .inl ⟨_, rfl⟩)
    (by
      intro sid hsid
      rw [show extractShareId "https://m.facebook.com/share/r/XyZ9/" = some "XyZ9"
        from by decide] at hsid
      cases hsid
      exact .inl ⟨"fetch failed", by decide⟩)
    (by exact .inl ⟨_, rfl⟩)
    (by exact .inl ⟨_, rfl⟩)).2

-- ==========================================================
-- C7: HD-before-SD quality tagging
-- ==========================================================

/-- C7: in the markup-parsing Facebook strategy `fetchViaFacebookAPI` the
HD-tier pattern list is consulted first — any HD-pattern hit yields an
outcome tagged `quality = "HD"` regardless of SD-pattern hits — a hit found
only through the SD fallback list yields `quality = "SD"`, and every outcome
of the delegated external API strategy `fetchViaCobalAPI` is tagged
`quality = "HD"` unconditionally. -/
theorem fb_quality_tagging (html : String) :
    (∀ cap, firstPatternMatch hdPatternsFBAPI html.toList = some cap →
        ∃ r, fetchViaFacebookAPI (.ok html) = some r ∧ r.quality = some "HD") ∧
    (firstPatternMatch hdPatternsFBAPI html.toList = none →
      ∀ cap, firstPatternMatch sdPatternsFBAPI html.toList = some cap →
        ∃ r, fetchViaFacebookAPI (.ok html) = some r ∧ r.quality = some "SD") ∧
    (∀ (resp : CobaltResp) (r : FetchResult),
        fetchViaCobalAPI resp = some r → r.quality = some "HD") := by
  refine ⟨?_, ?_, ?_⟩
  · intro cap hcap
    refine ⟨{ video_url := some (String.mk (fbCleanVideo cap)),
              thumbnail := (firstPatternMatch thumbnailPatternsFBAPI html.toList).map
                (fun c => String.mk (fbCleanThumb c)),
              quality := some "HD" }, ?_, rfl⟩
    simp only [fetchViaFacebookAPI, hcap]
  · intro hnone cap hcap
    refine ⟨{ video_url := some (String.mk (fbCleanVideo cap)),
              thumbnail := (firstPatternMatch thumbnailPatternsFBAPI html.toList).map
                (fun c => String.mk (fbCleanThumb c)),
              quality := some "SD" }, ?_, rfl⟩
    simp only [fetchViaFacebookAPI, hnone, hcap]
  · intro resp r h
    cases resp with
    | threw m => simp [fetchViaCobalAPI] at h
    | notOk s => simp [fetchViaCobalAPI] at h
    | ok data =>
      simp only [fetchViaCobalAPI] at h
      split at h
      · cases h
      · split at h
        · cases h; rfl
        · split at h
          · cases h; rfl
          · cases h

/-- Closed witness for `fb_quality_tagging` at concrete markup and a
concrete Cobalt response. -/
theorem fb_quality_tagging_witness :
    (∃ r, fetchViaFacebookAPI (.ok "x\"hd_src\":\"H\"y") = some r ∧
        r.quality = some "HD") ∧
    (∃ r, fetchViaFacebookAPI (.ok "x\"sd_src\":\"S\"y") = some r ∧
        r.quality = some "SD") ∧
    ({ video_url := some "https://c.mp4", quality := some "HD" } : FetchResult).quality =
      some "HD" :=
  ⟨(fb_quality_tagging "x\"hd_src\":\"H\"y").1 ['H'] (by decide),
   (fb_quality_tagging "x\"sd_src\":\"S\"y").2.1 (by decide) ['S'] (by decide),
   (fb_quality_tagging "").2.2 (.ok ⟨"stream", some "https://c.mp4", none⟩)
     { video_url := some "https://c.mp4", quality := some "HD" } (by decide)⟩

-- ==========================================================
-- C8: duration formatting
-- ==========================================================

/-- The raw seconds count that `extractVideoFromJSON` consults for the input
it navigates to. -/
def rawDurationOf : JSONItems → Option Nat
  | .arr (item :: _) => item.video_duration
  | .arr [] => none
  | .single item => item.video_duration
  | .missing => none

/-- Zero-padding a seconds remainder below 60 prepends a `"0"` exactly when
it is below 10. -/
theorem padStart2Zero_repr (m : Nat) (h : m < 60) :
    padStart2Zero (Nat.repr m) = (if m < 10 then "0" else "") ++ Nat.repr m := by
  revert h
  revert m
  decide

/-- The formatter renders minutes, a colon, and the zero-padded seconds. -/
theorem formatDuration_eq (d : Nat) :
    formatDuration d =
      Nat.repr (d / 60) ++ ":" ++
        (if d % 60 < 10 then "0" ++ Nat.repr (d % 60) else Nat.repr (d % 60)) := by
  unfold formatDuration
  rw [padStart2Zero_repr (d % 60) (Nat.mod_lt d (by decide))]
  by_cases h : d % 60 < 10
  · rw [if_pos h, if_pos h]
  · rw [if_neg h, if_neg h]
    simp

/-- C8: whenever the built result of `extractVideoFromJSON` carries a
duration string, that string is `floor(d/60)`, a colon, and `floor(d mod
60)` zero-padded to two digits, for the raw seconds count `d` of the
navigated item (which is present and nonzero — JavaScript `0` is falsy); and
when no raw duration is available the field is absent rather than
invented. -/
theorem duration_formatting (j : JSONItems) (r : FetchResult)
    (h : extractVideoFromJSON j = some r) :
    (∀ s, r.duration = some s →
        ∃ d, rawDurationOf j = some d ∧ d ≠ 0 ∧
          s = Nat.repr (d / 60) ++ ":" ++
              (if d % 60 < 10 then "0" ++ Nat.repr (d % 60) else Nat.repr (d % 60))) ∧
    (rawDurationOf j = none → r.duration = none) := by
  have key : ∀ item : MediaItem, r.duration = jsDuration item.video_duration →
      (∀ s, r.duration = some s →
          ∃ d, item.video_duration = some d ∧ d ≠ 0 ∧
            s = Nat.repr (d / 60) ++ ":" ++
                (if d % 60 < 10 then "0" ++ Nat.repr (d % 60) else Nat.repr (d % 60))) ∧
      (item.video_duration = none → r.duration = none) := by
    intro item hdur
    constructor
    · intro s hs
      rw [hdur] at hs
      cases hd : item.video_duration with
      | none => rw [hd] at hs; simp [jsDuration] at hs
      | some d =>
        rw [hd] at hs
        by_cases h0 : d = 0
        · rw [h0] at hs; simp [jsDuration] at hs
        · refine ⟨d, rfl, h0, ?_⟩
          simp only [jsDuration, if_neg h0, Option.some.injEq] at hs
          rw [← hs, formatDuration_eq]
    · intro hnone
      rw [hdur, hnone]
      rfl
  cases j with
  | missing => simp [extractVideoFromJSON] at h
  | arr items =>
    cases items with
    | nil => simp [extractVideoFromJSON] at h
    | cons item rest =>
      cases hv : item.video_versions with
      | nil =>
        rw [show extractVideoFromJSON (.arr (item :: rest)) = none by
          simp [extractVideoFromJSON, hv]] at h
        cases h
      | cons v vs =>
        have hstep : extractVideoFromJSON (.arr (item :: rest)) =
            some { video_url := some v,
                   thumbnail := jsOr item.image_candidates.head? item.display_url,
                   quality := some "HD",
                   duration := jsDuration item.video_duration } := by
          simp [extractVideoFromJSON, hv]
        rw [hstep] at h
        have hr := (Option.some.injEq _ _).mp h
        exact key item (by rw [← hr])
  | single item =>
    by_cases ht : truthyStr item.video_url = true
    · have hstep : extractVideoFromJSON (.single item) =
          some { video_url := item.video_url,
                 thumbnail := jsOr item.display_url item.thumbnail_src,
                 quality := some "HD",
                 duration := jsDuration item.video_duration } := by
        simp [extractVideoFromJSON, ht]
      rw [hstep] at h
      have hr := (Option.some.injEq _ _).mp h
      exact key item (by rw [← hr])
    · rw [show extractVideoFromJSON (.single item) = none by
        simp [extractVideoFromJSON, ht]] at h
      cases h

/-- Closed witness for `duration_formatting`: 65 raw seconds format as
`"1:05"`. -/
theorem duration_formatting_witness :
    ∃ d,
      rawDurationOf
        (.single { video_url := some "https://v.mp4", video_duration := some 65 }) =
        some d ∧ d ≠ 0 ∧
      "1:05" = Nat.repr (d / 60) ++ ":" ++
        (if d % 60 < 10 then "0" ++ Nat.repr (d % 60) else Nat.repr (d % 60)) :=
  (duration_formatting
    (.single { video_url := some "https://v.mp4", video_duration := some 65 })
    { video_url := some "https://v.mp4", quality := some "HD", duration := some "1:05" }
    (by decide)).1 "1:05" rfl

-- ==========================================================
-- C10: every Instagram outcome is tagged "HD"
-- ==========================================================

theorem extractVideoFromHTML_quality (html : String) (r : FetchResult)
    (h : extractVideoFromHTML html = some r) : r.quality = some "HD" := by
  unfold extractVideoFromHTML at h
  split at h
  · cases h
  · cases h; rfl

theorem extractVideoFromJSON_quality (j : JSONItems) (r : FetchResult)
    (h : extractVideoFromJSON j = some r) : r.quality = some "HD" := by
  cases j with
  | missing => cases h
  | arr items =>
    cases items with
    | nil => cases h
    | cons item rest =>
      simp only [extractVideoFromJSON] at h
      split at h
      · cases h; rfl
      · cases h
  | single item =>
    simp only [extractVideoFromJSON] at h
    split at h
    · cases h; rfl
    · cases h

theorem fetchViaInstagramAPI_quality (resp : HttpResp) (r : FetchResult)
    (h : fetchViaInstagramAPI resp = some r) : r.quality = some "HD" := by
  cases resp with
  | threw m => cases h
  | notOk s => cases h
  | ok html =>
    simp only [fetchViaInstagramAPI] at h
    split at h
    · cases h
    · cases h; rfl

theorem uaAttempt_eq (html : String) :
    uaAttempt (.ok html) =
      (match extractVideoFromHTML html with
       | none => none
       | some res => if truthyStr res.video_url = true then some res else none) := by
  cases hx : extractVideoFromHTML html with
  | none => simp [uaAttempt, tryFetchHtml, hx]
  | some res => simp [uaAttempt, tryFetchHtml, hx]

theorem uaAttempt_quality (resp : HttpResp) (r : FetchResult)
    (h : uaAttempt resp = some r) : r.quality = some "HD" := by
  cases resp with
  | threw m => cases h
  | notOk s => cases h
  | ok html =>
    rw [uaAttempt_eq] at h
    cases hx : extractVideoFromHTML html with
    | none => simp only [hx] at h; cases h
    | some res =>
      simp only [hx] at h
      by_cases ht : truthyStr res.video_url = true
      · rw [if_pos ht] at h
        cases h
        exact extractVideoFromHTML_quality html _ hx
      · rw [if_neg ht] at h
        cases h

theorem fetchViaPageScrape_quality (env : IGEnv) (sc : Option String)
    (r : FetchResult) (h : fetchViaPageScrape env sc = some r) :
    r.quality = some "HD" := by
  unfold fetchViaPageScrape at h
  cases hfs : [env.ua1, env.ua2, env.ua3, env.ua4].findSome? uaAttempt with
  | some r0 =>
    simp only [hfs] at h
    have hr : r = r0 := (Option.some.injEq _ _).mp h.symm
    rw [hr]
    obtain ⟨a, _, hfa⟩ := findSome?_exists uaAttempt _ r0 hfs
    exact uaAttempt_quality a r0 hfa
  | none =>
    simp only [hfs] at h
    cases sc with
    | none => cases h
    | some s => exact uaAttempt_quality env.embedPlain r h

theorem fetchViaAlternativeService_quality (env : IGEnv) (sc : Option String)
    (r : FetchResult) (h : fetchViaAlternativeService env sc = some r) :
    r.quality = some "HD" := by
  cases sc with
  | none => cases h
  | some s =>
    simp only [fetchViaAlternativeService] at h
    cases ha : env.altService with
    | threw m => simp only [ha] at h; cases h
    | notOk st => simp only [ha] at h; cases h
    | ok html =>
      simp only [ha] at h
      cases hm : firstPatternMatch altVideoPatterns html.toList with
      | none => simp only [hm] at h; cases h
      | some cap =>
        simp only [hm] at h
        cases h
        rfl

theorem fetchViaOEmbed_quality (env : IGEnv) (sc : Option String)
    (r : FetchResult) (h : fetchViaOEmbed env sc = some r)
    (ht : truthyStr r.video_url = true) : r.quality = some "HD" := by
  simp only [fetchViaOEmbed] at h
  cases ho : env.oembedResp with
  | threw m => simp only [ho] at h; cases h
  | notOk st =>
    simp only [ho] at h
    exact fetchViaAlternativeService_quality env sc r h
  | ok body =>
    simp only [ho] at h
    cases hv : (if truthyStr env.oembedHtml = true then
        firstPatternMatch oembedVideoPatterns (env.oembedHtml.getD "").toList
      else none) with
    | some cap =>
      simp only [hv] at h
      cases h
      rfl
    | none =>
      simp only [hv] at h
      by_cases hth : truthyStr env.oembedThumb = true
      · rw [if_pos hth] at h
        cases h
        simp [truthyStr] at ht
      · rw [if_neg hth] at h
        exact fetchViaAlternativeService_quality env sc r h

theorem igBackendResult_quality (env : IGEnv) (r : FetchResult)
    (h : igBackendResult env = some r) : r.quality = some "HD" := by
  unfold igBackendResult at h
  split at h
  · cases h; rfl
  · cases h

theorem fetchInstagramData_quality (url : String) (env : IGEnv) (r : FetchResult)
    (h : fetchInstagramData url env = .ok r) : r.quality = some "HD" := by
  simp only [fetchInstagramData] at h
  cases hb : igBackendResult env with
  | some r0 =>
    simp only [hb] at h
    have hr : r = r0 := by injection h with h1; exact h1.symm
    rw [hr]
    exact igBackendResult_quality env r0 hb
  | none =>
    simp only [hb] at h
    cases hsc : extractShortcode url with
    | none => simp only [hsc] at h; cases h
    | some sc =>
      simp only [hsc] at h
      cases hfs : firstSuccess [.ok (fetchViaInstagramAPI env.embedCaptioned),
          .ok (fetchViaPageScrape env (some sc)), .ok (fetchViaOEmbed env (some sc))] with
      | none => simp only [hfs] at h; cases h
      | some r0 =>
        simp only [hfs] at h
        have hr : r = r0 := by injection h with h1; exact h1.symm
        rw [hr]
        obtain ⟨hmem, htr⟩ := firstSuccess_eq_some _ r0 hfs
        simp only [List.mem_cons, List.not_mem_nil, or_false] at hmem
        rcases hmem with h1 | h2 | h3
        · injection h1 with h1
          exact fetchViaInstagramAPI_quality env.embedCaptioned r0 h1.symm
        · injection h2 with h2
          exact fetchViaPageScrape_quality env (some sc) r0 h2.symm
        · injection h3 with h3
          exact fetchViaOEmbed_quality env (some sc) r0 h3.symm htr

/-- C10: every successful extraction outcome the Instagram path produces —
from the delegated backend, the embed endpoint (`fetchViaInstagramAPI`),
page scraping, oEmbed (whose bare-thumbnail object carries no video URL and
is therefore never a successful extraction outcome), and the shared
HTML/JSON markup extractors — carries `quality = some "HD"` unconditionally,
whatever pattern matched; in particular no Instagram strategy can ever yield
quality `"SD"` or `"Unknown"`. -/
theorem instagram_quality_always_HD :
    (∀ (url : String) (env : IGEnv) (r : FetchResult),
        fetchInstagramData url env = .ok r → r.quality = some "HD") ∧
    (∀ (env : IGEnv) (r : FetchResult),
        igBackendResult env = some r → r.quality = some "HD") ∧
    (∀ (resp : HttpResp) (r : FetchResult),
        fetchViaInstagramAPI resp = some r → r.quality = some "HD") ∧
    (∀ (env : IGEnv) (sc : Option String) (r : FetchResult),
        fetchViaPageScrape env sc = some r → r.quality = some "HD") ∧
    (∀ (env : IGEnv) (sc : Option String) (r : FetchResult),
        fetchViaOEmbed env sc = some r → truthyStr r.video_url = true →
        r.quality = some "HD") ∧
    (∀ (html : String) (r : FetchResult),
        extractVideoFromHTML html = some r → r.quality = some "HD") ∧
    (∀ (j : JSONItems) (r : FetchResult),
        extractVideoFromJSON j = some r → r.quality = some "HD") :=
  ⟨fetchInstagramData_quality, igBackendResult_quality,
   fetchViaInstagramAPI_quality, fetchViaPageScrape_quality,
   fetchViaOEmbed_quality, extractVideoFromHTML_quality,
   extractVideoFromJSON_quality⟩

/-- A concrete Instagram environment in which the delegated backend answers
successfully. -/
def envC10 : IGEnv :=
  { backendSuccess := true, backendVideoUrl := some "https://v.cdn/x.mp4",
    backendMethod := "graphql", backendReachable := true,
    embedCaptioned := .notOk 500, ua1 := .notOk 500, ua2 := .notOk 500,
    ua3 := .notOk 500, ua4 := .notOk 500, embedPlain := .notOk 500,
    oembedResp := .notOk 500, oembedHtml := none, oembedThumb := none,
    altService := .notOk 500 }

/-- Closed witness for `instagram_quality_always_HD` at a concrete
backend-success run and a concrete markup extraction. -/
theorem instagram_quality_always_HD_witness :
    ({ video_url := some "https://v.cdn/x.mp4", quality := some "HD",
       method := some "puppeteer-graphql" } : FetchResult).quality = some "HD" ∧
    ({ video_url := some "x.mp4", quality := some "HD" } : FetchResult).quality =
      some "HD" :=
  ⟨instagram_quality_always_HD.1 "https://www.instagram.com/reel/ABC/" envC10
     { video_url := some "https://v.cdn/x.mp4", quality := some "HD",
       method := some "puppeteer-graphql" } (by decide),
   instagram_quality_always_HD.2.2.2.2.2.1 "\"video_url\":\"x.mp4\""
     { video_url := some "x.mp4", quality := some "HD" } (by decide)⟩
